import Mathlib

/-!
Verification of `scripts/extract.py` from arcasHLA.

The script is straight-line orchestration glue: it builds command lines for
external tools (samtools, bedtools, pigz) and runs them in order, then removes
its intermediate files.  We embed it shallowly as a pure function from the
script's arguments plus an environment (whether `bam + ".bai"` exists, whether
running `samtools index` creates it, and the BAM header text returned by the
header-dump command) to the list of observable events: external commands run,
a fatal `sys.exit`, and the final `remove_files` call.
-/

/-- A command line handed to `run_command`: the list of argument strings. -/
abbrev Cmd := List String

/-- Observable events of a run of the script: an external command invocation
(`run_command`), a fatal `sys.exit` with its message, or the final
`remove_files(file_list, keep_files)` call. -/
inductive Event where
  | run : Cmd → Event
  | exitErr : String → Event
  | removeFiles : List String → Bool → Event
deriving DecidableEq, Repr

/-- The commands issued in a trace, in order (run events only). -/
def runCmds (t : List Event) : List Cmd :=
  t.filterMap (fun e => match e with | Event.run c => some c | _ => none)

/-- Python's `pat in s` on strings: `pat` occurs as a contiguous substring. -/
def strContains (s pat : String) : Bool :=
  decide (pat.data <:+: s.data)

/-- Whether `bam + ".bai"` exists after `index_bam`'s conditional indexing
step: unchanged if it already existed, otherwise whatever `samtools index`
achieved. -/
def baiAfter (baiExists indexCreatesBai : Bool) : Bool :=
  if !baiExists then indexCreatesBai else baiExists

/-- `index_bam(bam)` (extract.py lines 46-53): runs `samtools index bam` when
`bam + ".bai"` is not a file, then exits with an error if it is still not a
file.  `baiExists` abstracts the first `isfile` test, `indexCreatesBai` the
outcome of the indexing command.  Returns the events together with `true`
when control returns to the caller (no `sys.exit`). -/
def index_bam (bam : String) (baiExists indexCreatesBai : Bool) :
    List Event × Bool :=
  let cmds : List Event :=
    if !baiExists then [Event.run ["samtools", "index", bam]] else []
  if !(baiAfter baiExists indexCreatesBai) then
    (cmds ++ [Event.exitErr "[extract] Error: unable to index bam file."], false)
  else
    (cmds, true)

/-- Model of `os.path.basename` on POSIX: the part of the path after the last
slash (empty when the path ends in a slash). -/
def basename (p : List Char) : List Char :=
  p.foldl (fun acc c => if c = '/' then [] else acc ++ [c]) []

/-- The part of a name standing before its last dot: `dropLastExt b = some pre`
when `b = pre ++ '.' :: post` with a dot-free `post`, and `none` when `b` has
no dot. -/
def dropLastExt : List Char → Option (List Char)
  | [] => none
  | c :: cs =>
    match dropLastExt cs with
    | some pre => some (c :: pre)
    | none => if c = '.' then some [] else none

/-- Model of `os.path.splitext(...)[0]` on a slash-free name (as produced by
`basename`): split off the last extension, unless every character before the
last dot is itself a dot (Python skips leading dots), in which case nothing
is split off. -/
def splitextFst (b : List Char) : List Char :=
  match dropLastExt b with
  | none => b
  | some pre => if pre.all (fun c => c = '.') then b else pre

/-- `sample` as computed inside `extract_reads` (line 63):
`os.path.splitext(os.path.basename(bam))[0]`. -/
def sample (bam : String) : String :=
  String.mk (splitextFst (basename bam.data))

/-- `sample` as computed in `__main__` (line 221):
`os.path.basename(args.bam).split('.')[0]`, the basename truncated at its
first dot. -/
def sampleMain (bam : String) : String :=
  String.mk ((basename bam.data).takeWhile (fun c => c ≠ '.'))

/-- `hla_filtered` (line 68): path of the intermediate filtered SAM file. -/
def hla_filtered (temp bam : String) : String :=
  temp ++ sample bam ++ ".hla.sam"

/-- `hla_filtered_bam` (line 70): path of the intermediate filtered BAM file. -/
def hla_filtered_bam (temp bam : String) : String :=
  temp ++ sample bam ++ ".hla.bam"

/-- `hla_sorted` (line 127): path of the intermediate sorted BAM file. -/
def hla_sorted (temp bam : String) : String :=
  temp ++ sample bam ++ ".hla.sorted.bam"

/-- `fq1` (line 138): first mate FASTQ output path (paired mode). -/
def fq1 (outdir bam : String) : String :=
  outdir ++ sample bam ++ ".extracted.1.fq"

/-- `fq2` (line 139): second mate FASTQ output path (paired mode). -/
def fq2 (outdir bam : String) : String :=
  outdir ++ sample bam ++ ".extracted.2.fq"

/-- `fq` (line 147): FASTQ output path (single-end mode). -/
def fq (outdir bam : String) : String :=
  outdir ++ sample bam ++ ".extracted.fq"

/-- `chrom` (lines 77-80): region name chosen from the BAM header text. -/
def chrom (header : String) : String :=
  if strContains header "SN:chr" then "chr6" else "6"

/-- `extract_reads(bam, outdir, paired, unmapped, alts, temp, threads,
keep_files)` (extract.py lines 56-152), as the trace of its events.  The
environment parameters `baiExists`/`indexCreatesBai` drive `index_bam` and
`header` is the stdout of the header-dump command (line 74-75).  A `sys.exit`
inside `index_bam` aborts the run, so the trace then ends at that event. -/
def extract_reads (bam outdir : String) (paired unmapped : Bool)
    (alts : List String) (temp threads : String) (keep_files : Bool)
    (baiExists indexCreatesBai : Bool) (header : String) : List Event :=
  let idx := index_bam bam baiExists indexCreatesBai
  if idx.2 = false then idx.1
  else
    idx.1
      ++ [Event.run ["samtools", "view", "-@" ++ threads, "-H", bam],
          Event.run ["samtools", "view", "-H", "-@" ++ threads,
                     bam, "-o", hla_filtered temp bam],
          Event.run (["samtools", "view", "-@" ++ threads]
            ++ (if paired then ["-f 2"] else ["-F 4"])
            ++ [bam, chrom header, ">>", hla_filtered temp bam])]
      ++ (if unmapped then
            [Event.run (["samtools", "view", "-@" ++ threads]
              ++ (if paired then ["-f 12"] else ["-f 4"])
              ++ [bam, chrom header, ">>", hla_filtered temp bam])]
          else [])
      ++ ((alts.filter (fun alt => strContains header alt)).map (fun alt =>
            Event.run (["samtools", "view", "-@" ++ threads]
              ++ (if paired then ["-f 2"] else ["-F 4"])
              ++ [bam, alt ++ ":", ">>", hla_filtered temp bam])))
      ++ [Event.run ["samtools", "view", "-Sb", "-@" ++ threads,
                     hla_filtered temp bam, ">", hla_filtered_bam temp bam],
          Event.run ["samtools", "sort", "-n", "-@" ++ threads,
                     hla_filtered_bam temp bam, "-o", hla_sorted temp bam]]
      ++ (if paired then
            [Event.run ["bedtools", "bamtofastq", "-i", hla_sorted temp bam,
                        "-fq", fq1 outdir bam, "-fq2", fq2 outdir bam],
             Event.run ["pigz", "-f", "-p", threads, "-S", ".gz", fq1 outdir bam],
             Event.run ["pigz", "-f", "-p", threads, "-S", ".gz", fq2 outdir bam]]
          else
            [Event.run ["bedtools", "bamtofastq", "-i", hla_sorted temp bam,
                        "-fq", fq outdir bam],
             Event.run ["pigz", "-f", "-p", threads, "-S", ".gz", fq outdir bam]])
      ++ [Event.removeFiles
            [hla_filtered temp bam, hla_filtered_bam temp bam, hla_sorted temp bam]
            keep_files]

/-- The tool a command invokes, identified by its first two argument strings
(for `pigz` the second string is always the literal `-f` flag). -/
def toolOf : Cmd → List String
  | a :: b :: _ => [a, b]
  | c => c

/-- Two commands that agree except for the thread-count argument: either they
are equal, or they differ exactly in a `-@t` versus `-@u` element, or exactly
in the element following a `-p`. -/
def ThreadsR (t u : String) (c d : Cmd) : Prop :=
  c = d
  ∨ (∃ p s, c = p ++ ["-@" ++ t] ++ s ∧ d = p ++ ["-@" ++ u] ++ s)
  ∨ (∃ p s, c = p ++ ["-p", t] ++ s ∧ d = p ++ ["-p", u] ++ s)

/-- Lift of `ThreadsR` to events: non-command events must be equal. -/
def EventR (t u : String) (e f : Event) : Prop :=
  e = f ∨ ∃ c d, e = Event.run c ∧ f = Event.run d ∧ ThreadsR t u c d

@[simp]
theorem runCmds_nil : runCmds [] = [] := rfl

@[simp]
theorem runCmds_cons_run (c : Cmd) (t : List Event) :
    runCmds (Event.run c :: t) = c :: runCmds t := rfl

@[simp]
theorem runCmds_cons_exit (m : String) (t : List Event) :
    runCmds (Event.exitErr m :: t) = runCmds t := rfl

@[simp]
theorem runCmds_cons_remove (fs : List String) (k : Bool) (t : List Event) :
    runCmds (Event.removeFiles fs k :: t) = runCmds t := rfl

@[simp]
theorem runCmds_append (s t : List Event) :
    runCmds (s ++ t) = runCmds s ++ runCmds t := by
  simp [runCmds, List.filterMap_append]

@[simp]
theorem runCmds_map_run (l : List Cmd) :
    runCmds (l.map Event.run) = l := by
  induction l with
  | nil => rfl
  | cons c cs ih => simp [runCmds] at ih ⊢; exact ih

/-- The full trace of a run of `extract_reads` that is not aborted by
`index_bam`, written as one explicit concatenation. -/
theorem extract_reads_eq (bam outdir : String) (paired unmapped : Bool)
    (alts : List String) (temp threads : String) (keep_files : Bool)
    (baiExists indexCreatesBai : Bool) (header : String)
    (h : baiAfter baiExists indexCreatesBai = true) :
    extract_reads bam outdir paired unmapped alts temp threads keep_files
        baiExists indexCreatesBai header =
      (if baiExists then [] else [Event.run ["samtools", "index", bam]])
        ++ [Event.run ["samtools", "view", "-@" ++ threads, "-H", bam],
            Event.run ["samtools", "view", "-H", "-@" ++ threads,
                       bam, "-o", hla_filtered temp bam],
            Event.run (["samtools", "view", "-@" ++ threads]
              ++ (if paired then ["-f 2"] else ["-F 4"])
              ++ [bam, chrom header, ">>", hla_filtered temp bam])]
        ++ (if unmapped then
              [Event.run (["samtools", "view", "-@" ++ threads]
                ++ (if paired then ["-f 12"] else ["-f 4"])
                ++ [bam, chrom header, ">>", hla_filtered temp bam])]
            else [])
        ++ ((alts.filter (fun alt => strContains header alt)).map (fun alt =>
              Event.run (["samtools", "view", "-@" ++ threads]
                ++ (if paired then ["-f 2"] else ["-F 4"])
                ++ [bam, alt ++ ":", ">>", hla_filtered temp bam])))
        ++ [Event.run ["samtools", "view", "-Sb", "-@" ++ threads,
                       hla_filtered temp bam, ">", hla_filtered_bam temp bam],
            Event.run ["samtools", "sort", "-n", "-@" ++ threads,
                       hla_filtered_bam temp bam, "-o", hla_sorted temp bam]]
        ++ (if paired then
              [Event.run ["bedtools", "bamtofastq", "-i", hla_sorted temp bam,
                          "-fq", fq1 outdir bam, "-fq2", fq2 outdir bam],
               Event.run ["pigz", "-f", "-p", threads, "-S", ".gz", fq1 outdir bam],
               Event.run ["pigz", "-f", "-p", threads, "-S", ".gz", fq2 outdir bam]]
            else
              [Event.run ["bedtools", "bamtofastq", "-i", hla_sorted temp bam,
                          "-fq", fq outdir bam],
               Event.run ["pigz", "-f", "-p", threads, "-S", ".gz", fq outdir bam]])
        ++ [Event.removeFiles
              [hla_filtered temp bam, hla_filtered_bam temp bam,
               hla_sorted temp bam]
              keep_files] := by
  cases baiExists with
  | true => simp [extract_reads, index_bam, baiAfter]
  | false =>
    simp only [baiAfter, Bool.not_false, ite_true] at h
    subst h
    simp [extract_reads, index_bam, baiAfter]

/-- C8: `index_bam` runs `samtools index` if and only if the `.bai` file is
absent beforehand; it exits with `[extract] Error: unable to index bam file.`
if and only if the file is still absent afterwards; and when the index already
exists it issues no command at all. -/
theorem index_bam_spec (bam : String) (baiExists indexCreatesBai : Bool) :
    ((Event.run ["samtools", "index", bam] ∈ (index_bam bam baiExists indexCreatesBai).1)
        ↔ baiExists = false)
    ∧ ((Event.exitErr "[extract] Error: unable to index bam file."
          ∈ (index_bam bam baiExists indexCreatesBai).1)
        ↔ baiAfter baiExists indexCreatesBai = false)
    ∧ ((index_bam bam baiExists indexCreatesBai).2 = false
        ↔ baiAfter baiExists indexCreatesBai = false)
    ∧ (baiExists = true → (index_bam bam baiExists indexCreatesBai).1 = []) := by
  cases baiExists <;> cases indexCreatesBai <;>
    simp [index_bam, baiAfter]

theorem dropLastExt_eq_none {b : List Char} (h : dropLastExt b = none) :
    '.' ∉ b := by
  induction b with
  | nil => simp
  | cons c cs ih =>
    simp only [dropLastExt] at h
    cases h' : dropLastExt cs with
    | some pre => rw [h'] at h; exact absurd h (by simp)
    | none =>
      rw [h'] at h
      by_cases hc : c = '.'
      · rw [if_pos hc] at h; exact absurd h (by simp)
      · rw [if_neg hc] at h
        intro hm
        rcases List.mem_cons.mp hm with h1 | h1
        · exact hc h1.symm
        · exact ih h' h1

theorem dropLastExt_eq_some {b pre : List Char} (h : dropLastExt b = some pre) :
    ∃ post, b = pre ++ '.' :: post ∧ '.' ∉ post := by
  induction b generalizing pre with
  | nil => exact absurd h (by simp [dropLastExt])
  | cons c cs ih =>
    simp only [dropLastExt] at h
    cases h' : dropLastExt cs with
    | some pre' =>
      rw [h'] at h
      obtain ⟨post, hcs, hpost⟩ := ih h'
      refine ⟨post, ?_, hpost⟩
      have : pre = c :: pre' := by
        have := h
        simp at this
        exact this.symm
      subst this
      simp [hcs]
    | none =>
      rw [h'] at h
      by_cases hc : c = '.'
      · rw [if_pos hc] at h
        have hpre : pre = [] := by simpa using h.symm
        subst hpre
        subst hc
        exact ⟨cs, rfl, dropLastExt_eq_none h'⟩
      · rw [if_neg hc] at h
        exact absurd h (by simp)

theorem splitextFst_ne_takeWhile {b : List Char} (h2 : 2 ≤ b.count '.') :
    splitextFst b ≠ b.takeWhile (fun c => c ≠ '.') := by
  cases hd : dropLastExt b with
  | none =>
    have hm : '.' ∈ b := List.count_pos_iff.mp (lt_of_lt_of_le (by norm_num) h2)
    exact absurd hm (dropLastExt_eq_none hd)
  | some pre =>
    obtain ⟨post, hb, hpost⟩ := dropLastExt_eq_some hd
    have hcount : b.count '.' = pre.count '.' + 1 := by
      subst hb
      simp [List.count_append, List.count_cons, List.count_eq_zero.mpr hpost]
    have hmem : '.' ∈ pre := by
      apply List.count_pos_iff.mp
      omega
    have hsplit : splitextFst b = if pre.all (fun c => c = '.') then b else pre := by
      rw [splitextFst, hd]
    rw [hsplit]
    by_cases hall : (pre.all (fun c => c = '.')) = true
    · rw [if_pos hall]
      obtain ⟨c, pre', hpre⟩ : ∃ c pre', pre = c :: pre' := by
        cases pre with
        | nil => exact absurd hmem (by simp)
        | cons c pre' => exact ⟨c, pre', rfl⟩
      have hc : c = '.' := by
        have := List.all_eq_true.mp hall c (by simp [hpre])
        simpa using this
      subst hpre hc
      rw [hb]
      simp [List.takeWhile]
    · rw [if_neg hall]
      intro heq
      have := List.mem_takeWhile_imp (heq ▸ hmem)
      simp at this

/-- C10: when the basename of the input BAM path contains more than one dot,
the sample name used inside `extract_reads` (basename with only the last
extension stripped) differs from the sample name used in `__main__` for the
log (basename truncated at its first dot). -/
theorem sample_names_differ (bam : String)
    (h : 2 ≤ (basename bam.data).count '.') :
    sample bam ≠ sampleMain bam := by
  intro heq
  have hdata := congrArg String.data heq
  simp only [sample, sampleMain] at hdata
  exact splitextFst_ne_takeWhile h hdata

theorem sample_names_differ_witness :
    2 ≤ (basename "p/s.tar.bam".data).count '.'
    ∧ sample "p/s.tar.bam" ≠ sampleMain "p/s.tar.bam" :=
  ⟨by decide, sample_names_differ "p/s.tar.bam" (by decide)⟩

theorem runCmds_ite (b : Prop) [Decidable b] (x y : List Event) :
    runCmds (if b then x else y) = if b then runCmds x else runCmds y := by
  split <;> rfl

theorem runCmds_map_run_comp {α : Type} (f : α → Cmd) (l : List α) :
    runCmds (l.map (fun a => Event.run (f a))) = l.map f := by
  induction l with
  | nil => rfl
  | cons a l ih => simpa [runCmds] using ih

/-- The commands of a completed run of `extract_reads`, in order. -/
theorem runCmds_extract_reads (bam outdir : String) (paired unmapped : Bool)
    (alts : List String) (temp threads : String) (keep_files : Bool)
    (baiExists indexCreatesBai : Bool) (header : String)
    (h : baiAfter baiExists indexCreatesBai = true) :
    runCmds (extract_reads bam outdir paired unmapped alts temp threads
        keep_files baiExists indexCreatesBai header) =
      (if baiExists then [] else [["samtools", "index", bam]])
        ++ [["samtools", "view", "-@" ++ threads, "-H", bam],
            ["samtools", "view", "-H", "-@" ++ threads,
             bam, "-o", hla_filtered temp bam],
            ["samtools", "view", "-@" ++ threads]
              ++ (if paired then ["-f 2"] else ["-F 4"])
              ++ [bam, chrom header, ">>", hla_filtered temp bam]]
        ++ (if unmapped then
              [["samtools", "view", "-@" ++ threads]
                ++ (if paired then ["-f 12"] else ["-f 4"])
                ++ [bam, chrom header, ">>", hla_filtered temp bam]]
            else [])
        ++ ((alts.filter (fun alt => strContains header alt)).map (fun alt =>
              ["samtools", "view", "-@" ++ threads]
                ++ (if paired then ["-f 2"] else ["-F 4"])
                ++ [bam, alt ++ ":", ">>", hla_filtered temp bam]))
        ++ [["samtools", "view", "-Sb", "-@" ++ threads,
             hla_filtered temp bam, ">", hla_filtered_bam temp bam],
            ["samtools", "sort", "-n", "-@" ++ threads,
             hla_filtered_bam temp bam, "-o", hla_sorted temp bam]]
        ++ (if paired then
              [["bedtools", "bamtofastq", "-i", hla_sorted temp bam,
                "-fq", fq1 outdir bam, "-fq2", fq2 outdir bam],
               ["pigz", "-f", "-p", threads, "-S", ".gz", fq1 outdir bam],
               ["pigz", "-f", "-p", threads, "-S", ".gz", fq2 outdir bam]]
            else
              [["bedtools", "bamtofastq", "-i", hla_sorted temp bam,
                "-fq", fq outdir bam],
               ["pigz", "-f", "-p", threads, "-S", ".gz", fq outdir bam]]) := by
  rw [extract_reads_eq bam outdir paired unmapped alts temp threads keep_files
        baiExists indexCreatesBai header h]
  simp only [runCmds_append, runCmds_ite, runCmds_map_run_comp, runCmds_nil,
    runCmds_cons_run, runCmds_cons_remove]
  cases baiExists <;> cases unmapped <;> cases paired <;> simp

theorem split_of_eq {α : Type} (A : List α) {L B : List α} {c : α}
    (h : L = A ++ c :: B) :
    ∃ pre post, L = pre ++ c :: post ∧ pre.length = A.length :=
  ⟨A, B, h, rfl⟩

/-- C2: the run uses region name `chr6` in its chromosome-6 read-extraction
commands (the third samtools view command and, with the unmapped option, the
following one) exactly when `SN:chr` occurs in the dumped BAM header, and
region name `6` otherwise. -/
theorem chrom_nomenclature (bam outdir : String) (paired unmapped : Bool)
    (alts : List String) (temp threads : String) (keep_files : Bool)
    (baiExists indexCreatesBai : Bool) (header : String)
    (h : baiAfter baiExists indexCreatesBai = true) :
    (∃ pre post,
        runCmds (extract_reads bam outdir paired unmapped alts temp threads
            keep_files baiExists indexCreatesBai header) =
          pre ++ (["samtools", "view", "-@" ++ threads]
              ++ (if paired then ["-f 2"] else ["-F 4"])
              ++ [bam, chrom header, ">>", hla_filtered temp bam]) :: post
        ∧ pre.length = (if baiExists then 2 else 3)
        ∧ (unmapped = true →
            post.headD [] = ["samtools", "view", "-@" ++ threads]
              ++ (if paired then ["-f 12"] else ["-f 4"])
              ++ [bam, chrom header, ">>", hla_filtered temp bam]))
    ∧ (chrom header = "chr6" ↔ strContains header "SN:chr" = true)
    ∧ (chrom header = "6" ↔ strContains header "SN:chr" = false) := by
  refine ⟨?_, ?_, ?_⟩
  · rw [runCmds_extract_reads bam outdir paired unmapped alts temp threads
        keep_files baiExists indexCreatesBai header h]
    cases baiExists with
    | true =>
      refine ⟨[["samtools", "view", "-@" ++ threads, "-H", bam],
               ["samtools", "view", "-H", "-@" ++ threads,
                bam, "-o", hla_filtered temp bam]], _, rfl, rfl, ?_⟩
      intro hu
      subst hu
      simp
    | false =>
      refine ⟨[["samtools", "index", bam],
               ["samtools", "view", "-@" ++ threads, "-H", bam],
               ["samtools", "view", "-H", "-@" ++ threads,
                bam, "-o", hla_filtered temp bam]], _, rfl, rfl, ?_⟩
      intro hu
      subst hu
      simp
  · cases hc : strContains header "SN:chr" <;> simp [chrom, hc]
  · cases hc : strContains header "SN:chr" <;> simp [chrom, hc]

theorem append_colon_ne (s t : String) (ht : t.data.getLast? ≠ some ':') :
    s ++ ":" ≠ t := by
  intro h
  apply ht
  rw [← h, String.data_append]
  exact List.getLast?_append_of_ne_nil _ (by decide)

@[simp]
theorem append_colon_ne_chrom (s header : String) :
    (s ++ ":" = chrom header) ↔ False := by
  rw [iff_false]
  rw [chrom]
  split
  · exact append_colon_ne s "chr6" (by decide)
  · exact append_colon_ne s "6" (by decide)

@[simp]
theorem chrom_ne_append_colon (s header : String) :
    (chrom header = s ++ ":") ↔ False := by
  rw [iff_false]
  intro h
  exact (append_colon_ne_chrom s header).mp h.symm

@[simp]
theorem append_colon_inj (a b : String) : (a ++ ":" = b ++ ":") ↔ a = b := by
  constructor
  · intro h
    have hd := congrArg String.data h
    simp only [String.data_append] at hd
    exact String.ext (List.append_left_injective ":".data hd)
  · intro h
    rw [h]

/-- C3: the chromosome-6 read-extraction command carries the single SAM-flag
filter `-f 2` when `paired` is set and `-F 4` when it is not; the command
consists of exactly these eight strings. -/
theorem chr6_flag_filter (bam outdir : String) (paired unmapped : Bool)
    (alts : List String) (temp threads : String) (keep_files : Bool)
    (baiExists indexCreatesBai : Bool) (header : String)
    (h : baiAfter baiExists indexCreatesBai = true) :
    ∃ pre post flag,
      runCmds (extract_reads bam outdir paired unmapped alts temp threads
          keep_files baiExists indexCreatesBai header) =
        pre ++ ["samtools", "view", "-@" ++ threads, flag,
                bam, chrom header, ">>", hla_filtered temp bam] :: post
      ∧ pre.length = (if baiExists then 2 else 3)
      ∧ (paired = true → flag = "-f 2")
      ∧ (paired = false → flag = "-F 4") := by
  rw [runCmds_extract_reads bam outdir paired unmapped alts temp threads
      keep_files baiExists indexCreatesBai header h]
  cases baiExists with
  | true =>
    cases paired with
    | true =>
      exact ⟨[["samtools", "view", "-@" ++ threads, "-H", bam],
              ["samtools", "view", "-H", "-@" ++ threads,
               bam, "-o", hla_filtered temp bam]], _, "-f 2",
             rfl, rfl, fun _ => rfl, fun hp => absurd hp (by simp)⟩
    | false =>
      exact ⟨[["samtools", "view", "-@" ++ threads, "-H", bam],
              ["samtools", "view", "-H", "-@" ++ threads,
               bam, "-o", hla_filtered temp bam]], _, "-F 4",
             rfl, rfl, fun hp => absurd hp (by simp), fun _ => rfl⟩
  | false =>
    cases paired with
    | true =>
      exact ⟨[["samtools", "index", bam],
              ["samtools", "view", "-@" ++ threads, "-H", bam],
              ["samtools", "view", "-H", "-@" ++ threads,
               bam, "-o", hla_filtered temp bam]], _, "-f 2",
             rfl, rfl, fun _ => rfl, fun hp => absurd hp (by simp)⟩
    | false =>
      exact ⟨[["samtools", "index", bam],
              ["samtools", "view", "-@" ++ threads, "-H", bam],
              ["samtools", "view", "-H", "-@" ++ threads,
               bam, "-o", hla_filtered temp bam]], _, "-F 4",
             rfl, rfl, fun hp => absurd hp (by simp), fun _ => rfl⟩

/-- C4: a further read-extraction command appending to the filtered SAM file
with flag filter `-f 12` (paired) or `-f 4` (unpaired) occurs in the trace if
and only if the unmapped option is set. -/
theorem unmapped_extraction (bam outdir : String) (paired unmapped : Bool)
    (alts : List String) (temp threads : String) (keep_files : Bool)
    (baiExists indexCreatesBai : Bool) (header : String)
    (h : baiAfter baiExists indexCreatesBai = true) :
    (Event.run (["samtools", "view", "-@" ++ threads]
        ++ (if paired then ["-f 12"] else ["-f 4"])
        ++ [bam, chrom header, ">>", hla_filtered temp bam])
      ∈ extract_reads bam outdir paired unmapped alts temp threads
          keep_files baiExists indexCreatesBai header)
    ↔ unmapped = true := by
  rw [extract_reads_eq bam outdir paired unmapped alts temp threads
      keep_files baiExists indexCreatesBai header h]
  cases unmapped <;> cases paired <;> simp

/-- C5: for every name in the alts list, a read-extraction command for the
region `alt ++ ":"` occurs in the trace if and only if the name occurs as a
substring of the BAM header, and such commands append (`>>`) to the same
filtered SAM file as the chromosome-6 extraction, which is also in the
trace. -/
theorem alt_extraction (bam outdir : String) (paired unmapped : Bool)
    (alts : List String) (temp threads : String) (keep_files : Bool)
    (baiExists indexCreatesBai : Bool) (header : String)
    (h : baiAfter baiExists indexCreatesBai = true) :
    ∀ alt ∈ alts,
      ((Event.run (["samtools", "view", "-@" ++ threads]
          ++ (if paired then ["-f 2"] else ["-F 4"])
          ++ [bam, alt ++ ":", ">>", hla_filtered temp bam])
        ∈ extract_reads bam outdir paired unmapped alts temp threads
            keep_files baiExists indexCreatesBai header)
      ↔ strContains header alt = true)
    ∧ (Event.run (["samtools", "view", "-@" ++ threads]
          ++ (if paired then ["-f 2"] else ["-F 4"])
          ++ [bam, chrom header, ">>", hla_filtered temp bam])
        ∈ extract_reads bam outdir paired unmapped alts temp threads
            keep_files baiExists indexCreatesBai header) := by
  rw [extract_reads_eq bam outdir paired unmapped alts temp threads
      keep_files baiExists indexCreatesBai header h]
  intro alt halt
  constructor
  · cases paired <;> cases unmapped <;> simp [halt]
  · cases paired <;> simp

/-- C6: the run ends (apart from the file-removal step) with one bedtools
bamtofastq conversion into `sample + ".extracted.1.fq"` / `".extracted.2.fq"`
under the output directory when paired (into `sample + ".extracted.fq"` when
not), followed by exactly the pigz invocations on those same files; no
earlier command invokes pigz. -/
theorem fastq_outputs (bam outdir : String) (paired unmapped : Bool)
    (alts : List String) (temp threads : String) (keep_files : Bool)
    (baiExists indexCreatesBai : Bool) (header : String)
    (h : baiAfter baiExists indexCreatesBai = true) :
    ∃ pre,
      runCmds (extract_reads bam outdir paired unmapped alts temp threads
          keep_files baiExists indexCreatesBai header) =
        pre ++ (["bedtools", "bamtofastq", "-i", hla_sorted temp bam]
            ++ (if paired then ["-fq", fq1 outdir bam, "-fq2", fq2 outdir bam]
                else ["-fq", fq outdir bam]))
          :: (if paired then
                [["pigz", "-f", "-p", threads, "-S", ".gz", fq1 outdir bam],
                 ["pigz", "-f", "-p", threads, "-S", ".gz", fq2 outdir bam]]
              else
                [["pigz", "-f", "-p", threads, "-S", ".gz", fq outdir bam]])
      ∧ ∀ c ∈ pre, c.headD "" ≠ "pigz" := by
  rw [runCmds_extract_reads bam outdir paired unmapped alts temp threads
      keep_files baiExists indexCreatesBai header h]
  refine ⟨(if baiExists then [] else [["samtools", "index", bam]])
      ++ [["samtools", "view", "-@" ++ threads, "-H", bam],
          ["samtools", "view", "-H", "-@" ++ threads,
           bam, "-o", hla_filtered temp bam],
          ["samtools", "view", "-@" ++ threads]
            ++ (if paired then ["-f 2"] else ["-F 4"])
            ++ [bam, chrom header, ">>", hla_filtered temp bam]]
      ++ (if unmapped then
            [["samtools", "view", "-@" ++ threads]
              ++ (if paired then ["-f 12"] else ["-f 4"])
              ++ [bam, chrom header, ">>", hla_filtered temp bam]]
          else [])
      ++ ((alts.filter (fun alt => strContains header alt)).map (fun alt =>
            ["samtools", "view", "-@" ++ threads]
              ++ (if paired then ["-f 2"] else ["-F 4"])
              ++ [bam, alt ++ ":", ">>", hla_filtered temp bam]))
      ++ [["samtools", "view", "-Sb", "-@" ++ threads,
           hla_filtered temp bam, ">", hla_filtered_bam temp bam],
          ["samtools", "sort", "-n", "-@" ++ threads,
           hla_filtered_bam temp bam, "-o", hla_sorted temp bam]], ?_, ?_⟩
  · cases paired <;> simp [List.append_assoc]
  · intro c hc
    cases baiExists with
    | true =>
      cases unmapped with
      | true =>
        simp at hc
        rcases hc with rfl | rfl | rfl | rfl | ⟨a, ha, rfl⟩ | rfl | rfl <;> simp
      | false =>
        simp at hc
        rcases hc with rfl | rfl | rfl | ⟨a, ha, rfl⟩ | rfl | rfl <;> simp
    | false =>
      cases unmapped with
      | true =>
        simp at hc
        rcases hc with rfl | rfl | rfl | rfl | rfl | ⟨a, ha, rfl⟩ | rfl | rfl <;> simp
      | false =>
        simp at hc
        rcases hc with rfl | rfl | rfl | rfl | ⟨a, ha, rfl⟩ | rfl | rfl <;> simp

theorem path_ne (x y s t : String) (hs : s.data ≠ []) (ht : t.data ≠ [])
    (hne : s.data.getLast? ≠ t.data.getLast?) : x ++ s ≠ y ++ t := by
  intro h
  apply hne
  have h1 : (x ++ s).data.getLast? = s.data.getLast? := by
    rw [String.data_append]
    exact List.getLast?_append_of_ne_nil _ hs
  have h2 : (y ++ t).data.getLast? = t.data.getLast? := by
    rw [String.data_append]
    exact List.getLast?_append_of_ne_nil _ ht
  rw [← h1, ← h2, h]

/-- C9: the run ends with a single file-removal step over exactly the three
intermediate files under the temp directory together with the keep_files
flag; no removal happens earlier, and none of the FASTQ output paths under
the output directory is in the removal list. -/
theorem remove_intermediates (bam outdir : String) (paired unmapped : Bool)
    (alts : List String) (temp threads : String) (keep_files : Bool)
    (baiExists indexCreatesBai : Bool) (header : String)
    (h : baiAfter baiExists indexCreatesBai = true) :
    ∃ pre,
      extract_reads bam outdir paired unmapped alts temp threads
          keep_files baiExists indexCreatesBai header =
        pre ++ [Event.removeFiles
          [hla_filtered temp bam, hla_filtered_bam temp bam, hla_sorted temp bam]
          keep_files]
      ∧ (∀ fs k, Event.removeFiles fs k ∉ pre)
      ∧ fq1 outdir bam ∉
          [hla_filtered temp bam, hla_filtered_bam temp bam, hla_sorted temp bam]
      ∧ fq2 outdir bam ∉
          [hla_filtered temp bam, hla_filtered_bam temp bam, hla_sorted temp bam]
      ∧ fq outdir bam ∉
          [hla_filtered temp bam, hla_filtered_bam temp bam, hla_sorted temp bam] := by
  rw [extract_reads_eq bam outdir paired unmapped alts temp threads
      keep_files baiExists indexCreatesBai header h]
  refine ⟨(if baiExists then [] else [Event.run ["samtools", "index", bam]])
      ++ [Event.run ["samtools", "view", "-@" ++ threads, "-H", bam],
          Event.run ["samtools", "view", "-H", "-@" ++ threads,
                     bam, "-o", hla_filtered temp bam],
          Event.run (["samtools", "view", "-@" ++ threads]
            ++ (if paired then ["-f 2"] else ["-F 4"])
            ++ [bam, chrom header, ">>", hla_filtered temp bam])]
      ++ (if unmapped then
            [Event.run (["samtools", "view", "-@" ++ threads]
              ++ (if paired then ["-f 12"] else ["-f 4"])
              ++ [bam, chrom header, ">>", hla_filtered temp bam])]
          else [])
      ++ ((alts.filter (fun alt => strContains header alt)).map (fun alt =>
            Event.run (["samtools", "view", "-@" ++ threads]
              ++ (if paired then ["-f 2"] else ["-F 4"])
              ++ [bam, alt ++ ":", ">>", hla_filtered temp bam])))
      ++ [Event.run ["samtools", "view", "-Sb", "-@" ++ threads,
                     hla_filtered temp bam, ">", hla_filtered_bam temp bam],
          Event.run ["samtools", "sort", "-n", "-@" ++ threads,
                     hla_filtered_bam temp bam, "-o", hla_sorted temp bam]]
      ++ (if paired then
            [Event.run ["bedtools", "bamtofastq", "-i", hla_sorted temp bam,
                        "-fq", fq1 outdir bam, "-fq2", fq2 outdir bam],
             Event.run ["pigz", "-f", "-p", threads, "-S", ".gz", fq1 outdir bam],
             Event.run ["pigz", "-f", "-p", threads, "-S", ".gz", fq2 outdir bam]]
          else
            [Event.run ["bedtools", "bamtofastq", "-i", hla_sorted temp bam,
                        "-fq", fq outdir bam],
             Event.run ["pigz", "-f", "-p", threads, "-S", ".gz", fq outdir bam]]),
      ?_, ?_, ?_, ?_, ?_⟩
  · simp [List.append_assoc]
  · intro fs k hmem
    cases baiExists <;> cases unmapped <;> cases paired <;> simp at hmem
  · simp only [List.mem_cons, List.not_mem_nil, or_false, not_or,
      fq1, hla_filtered, hla_filtered_bam, hla_sorted]
    exact ⟨path_ne (outdir ++ sample bam) (temp ++ sample bam)
             ".extracted.1.fq" ".hla.sam" (by decide) (by decide) (by decide),
           path_ne (outdir ++ sample bam) (temp ++ sample bam)
             ".extracted.1.fq" ".hla.bam" (by decide) (by decide) (by decide),
           path_ne (outdir ++ sample bam) (temp ++ sample bam)
             ".extracted.1.fq" ".hla.sorted.bam" (by decide) (by decide) (by decide)⟩
  · simp only [List.mem_cons, List.not_mem_nil, or_false, not_or,
      fq2, hla_filtered, hla_filtered_bam, hla_sorted]
    exact ⟨path_ne (outdir ++ sample bam) (temp ++ sample bam)
             ".extracted.2.fq" ".hla.sam" (by decide) (by decide) (by decide),
           path_ne (outdir ++ sample bam) (temp ++ sample bam)
             ".extracted.2.fq" ".hla.bam" (by decide) (by decide) (by decide),
           path_ne (outdir ++ sample bam) (temp ++ sample bam)
             ".extracted.2.fq" ".hla.sorted.bam" (by decide) (by decide) (by decide)⟩
  · simp only [List.mem_cons, List.not_mem_nil, or_false, not_or,
      fq, hla_filtered, hla_filtered_bam, hla_sorted]
    exact ⟨path_ne (outdir ++ sample bam) (temp ++ sample bam)
             ".extracted.fq" ".hla.sam" (by decide) (by decide) (by decide),
           path_ne (outdir ++ sample bam) (temp ++ sample bam)
             ".extracted.fq" ".hla.bam" (by decide) (by decide) (by decide),
           path_ne (outdir ++ sample bam) (temp ++ sample bam)
             ".extracted.fq" ".hla.sorted.bam" (by decide) (by decide) (by decide)⟩

theorem map_comp_const {α β γ : Type} (f : α → β) (g : β → γ) (b : γ)
    (l : List α) (hgf : ∀ a, g (f a) = b) :
    l.map (g ∘ f) = List.replicate l.length b := by
  induction l with
  | nil => rfl
  | cons a l ih => simp [Function.comp, hgf, ih, List.replicate_succ]

/-- C1: the tools invoked by a completed run, in order, are: samtools index
(only when indexing is needed), then the samtools view steps (header dump,
header-only extraction, the chromosome-6 extraction, the optional unmapped
extraction, one extraction per alt found in the header, and the SAM-to-BAM
conversion), then samtools sort, then bedtools bamtofastq, then the pigz
compressions; moreover the region/flag extractions sit between the
header-only extraction and the SAM-to-BAM conversion, are all samtools view
commands, and all append (`>>`) to the filtered SAM file. -/
theorem tool_order (bam outdir : String) (paired unmapped : Bool)
    (alts : List String) (temp threads : String) (keep_files : Bool)
    (baiExists indexCreatesBai : Bool) (header : String)
    (h : baiAfter baiExists indexCreatesBai = true) :
    ((runCmds (extract_reads bam outdir paired unmapped alts temp threads
          keep_files baiExists indexCreatesBai header)).map toolOf =
        (if baiExists then [] else [["samtools", "index"]])
          ++ ["samtools", "view"] :: ["samtools", "view"] :: ["samtools", "view"]
            :: ((if unmapped then [["samtools", "view"]] else [])
              ++ (List.replicate
                    ((alts.filter (fun alt => strContains header alt)).length)
                    ["samtools", "view"]
                ++ (["samtools", "view"] :: ["samtools", "sort"]
                    :: ["bedtools", "bamtofastq"]
                    :: (if paired then [["pigz", "-f"], ["pigz", "-f"]]
                        else [["pigz", "-f"]])))))
    ∧ ∃ regs,
        runCmds (extract_reads bam outdir paired unmapped alts temp threads
            keep_files baiExists indexCreatesBai header) =
          (if baiExists then [] else [["samtools", "index", bam]])
            ++ [["samtools", "view", "-@" ++ threads, "-H", bam],
                ["samtools", "view", "-H", "-@" ++ threads,
                 bam, "-o", hla_filtered temp bam]]
            ++ regs
            ++ [["samtools", "view", "-Sb", "-@" ++ threads,
                 hla_filtered temp bam, ">", hla_filtered_bam temp bam],
                ["samtools", "sort", "-n", "-@" ++ threads,
                 hla_filtered_bam temp bam, "-o", hla_sorted temp bam],
                ["bedtools", "bamtofastq", "-i", hla_sorted temp bam]
                  ++ (if paired then
                        ["-fq", fq1 outdir bam, "-fq2", fq2 outdir bam]
                      else ["-fq", fq outdir bam])]
            ++ (if paired then
                  [["pigz", "-f", "-p", threads, "-S", ".gz", fq1 outdir bam],
                   ["pigz", "-f", "-p", threads, "-S", ".gz", fq2 outdir bam]]
                else
                  [["pigz", "-f", "-p", threads, "-S", ".gz", fq outdir bam]])
        ∧ ∀ c ∈ regs, toolOf c = ["samtools", "view"] ∧ ">>" ∈ c
            ∧ c.getLastD "" = hla_filtered temp bam := by
  constructor
  · rw [runCmds_extract_reads bam outdir paired unmapped alts temp threads
        keep_files baiExists indexCreatesBai header h]
    cases baiExists <;> cases unmapped <;> cases paired <;>
      (simp [toolOf]
       exact map_comp_const _ toolOf _ _ (fun a => rfl))
  · rw [runCmds_extract_reads bam outdir paired unmapped alts temp threads
        keep_files baiExists indexCreatesBai header h]
    refine ⟨(["samtools", "view", "-@" ++ threads]
          ++ (if paired then ["-f 2"] else ["-F 4"])
          ++ [bam, chrom header, ">>", hla_filtered temp bam])
        :: ((if unmapped then
              [["samtools", "view", "-@" ++ threads]
                ++ (if paired then ["-f 12"] else ["-f 4"])
                ++ [bam, chrom header, ">>", hla_filtered temp bam]]
            else [])
          ++ ((alts.filter (fun alt => strContains header alt)).map (fun alt =>
                ["samtools", "view", "-@" ++ threads]
                  ++ (if paired then ["-f 2"] else ["-F 4"])
                  ++ [bam, alt ++ ":", ">>", hla_filtered temp bam]))), ?_, ?_⟩
    · cases paired <;> simp [List.append_assoc]
    · intro c hc
      cases unmapped with
      | true =>
        simp at hc
        rcases hc with rfl | rfl | ⟨a, ha, rfl⟩ <;> cases paired <;>
          exact ⟨rfl, by simp, rfl⟩
      | false =>
        simp at hc
        rcases hc with rfl | ⟨a, ha, rfl⟩ <;> cases paired <;>
          exact ⟨rfl, by simp, rfl⟩

theorem eventR_refl (t u : String) (l : List Event) :
    List.Forall₂ (EventR t u) l l :=
  List.forall₂_same.mpr (fun _ _ => Or.inl rfl)

theorem forall₂_map_pair {α β : Type} (R : β → β → Prop) (f g : α → β)
    (l : List α) (h : ∀ a ∈ l, R (f a) (g a)) :
    List.Forall₂ R (l.map f) (l.map g) := by
  induction l with
  | nil => exact List.Forall₂.nil
  | cons a l ih =>
    exact List.Forall₂.cons (h a (by simp))
      (ih (fun x hx => h x (by simp [hx])))

/-- C7: every samtools view and samtools sort command carries the argument
`-@` concatenated with the threads value, every pigz command carries the
threads value as the argument following `-p`, and the threads value is used
nowhere else: two runs differing only in the threads value produce traces
that are pointwise equal except for exactly those argument positions. -/
theorem threads_usage (bam outdir : String) (paired unmapped : Bool)
    (alts : List String) (temp : String) (keep_files : Bool)
    (baiExists indexCreatesBai : Bool) (header : String)
    (threads threads' : String) :
    (∀ c ∈ runCmds (extract_reads bam outdir paired unmapped alts temp threads
        keep_files baiExists indexCreatesBai header),
      ((toolOf c = ["samtools", "view"] ∨ toolOf c = ["samtools", "sort"]) →
        ("-@" ++ threads) ∈ c)
      ∧ (c.headD "" = "pigz" → ∃ p s, c = p ++ ["-p", threads] ++ s))
    ∧ List.Forall₂ (EventR threads threads')
        (extract_reads bam outdir paired unmapped alts temp threads
          keep_files baiExists indexCreatesBai header)
        (extract_reads bam outdir paired unmapped alts temp threads'
          keep_files baiExists indexCreatesBai header) := by
  constructor
  · intro c hc
    by_cases hb : baiAfter baiExists indexCreatesBai = true
    · rw [runCmds_extract_reads bam outdir paired unmapped alts temp threads
          keep_files baiExists indexCreatesBai header hb] at hc
      cases baiExists <;> cases unmapped <;> cases paired <;>
        (simp at hc
         casesm* _ ∨ _, _ ∧ _, Exists _
         all_goals subst_vars
         all_goals refine ⟨fun hx => ?_, fun hx => ?_⟩
         all_goals
           first
             | (simp; done)
             | (rcases hx with h | h <;> simp [toolOf] at h)
             | exact ⟨["pigz", "-f"], _, rfl⟩
             | simp [toolOf] at hx)
    · have hbb : baiExists = false ∧ indexCreatesBai = false := by
        cases baiExists <;> cases indexCreatesBai <;> simp_all [baiAfter]
      obtain ⟨h1, h2⟩ := hbb
      subst h1
      subst h2
      simp [extract_reads, index_bam, baiAfter, runCmds] at hc
      subst hc
      exact ⟨fun hx => absurd hx (by simp [toolOf]),
             fun hx => absurd hx (by simp)⟩
  · by_cases hb : baiAfter baiExists indexCreatesBai = true
    · rw [extract_reads_eq bam outdir paired unmapped alts temp threads
          keep_files baiExists indexCreatesBai header hb,
          extract_reads_eq bam outdir paired unmapped alts temp threads'
          keep_files baiExists indexCreatesBai header hb]
      refine List.rel_append (List.rel_append (List.rel_append
        (List.rel_append (List.rel_append (List.rel_append ?_ ?_) ?_) ?_)
          ?_) ?_) ?_
      · exact eventR_refl _ _ _
      · refine List.Forall₂.cons ?_ (List.Forall₂.cons ?_
          (List.Forall₂.cons ?_ List.Forall₂.nil))
        · exact Or.inr ⟨_, _, rfl, rfl,
            Or.inr (Or.inl ⟨["samtools", "view"], ["-H", bam], rfl, rfl⟩)⟩
        · exact Or.inr ⟨_, _, rfl, rfl,
            Or.inr (Or.inl ⟨["samtools", "view", "-H"],
              [bam, "-o", hla_filtered temp bam], rfl, rfl⟩)⟩
        · exact Or.inr ⟨_, _, rfl, rfl,
            Or.inr (Or.inl ⟨["samtools", "view"], _, rfl, rfl⟩)⟩
      · cases unmapped with
        | true =>
          exact List.Forall₂.cons
            (Or.inr ⟨_, _, rfl, rfl,
              Or.inr (Or.inl ⟨["samtools", "view"], _, rfl, rfl⟩)⟩)
            List.Forall₂.nil
        | false => exact List.Forall₂.nil
      · exact forall₂_map_pair _ _ _ _
          (fun a _ => Or.inr ⟨_, _, rfl, rfl,
            Or.inr (Or.inl ⟨["samtools", "view"], _, rfl, rfl⟩)⟩)
      · refine List.Forall₂.cons ?_ (List.Forall₂.cons ?_ List.Forall₂.nil)
        · exact Or.inr ⟨_, _, rfl, rfl,
            Or.inr (Or.inl ⟨["samtools", "view", "-Sb"],
              [hla_filtered temp bam, ">", hla_filtered_bam temp bam],
              rfl, rfl⟩)⟩
        · exact Or.inr ⟨_, _, rfl, rfl,
            Or.inr (Or.inl ⟨["samtools", "sort", "-n"],
              [hla_filtered_bam temp bam, "-o", hla_sorted temp bam],
              rfl, rfl⟩)⟩
      · cases paired with
        | true =>
          refine List.Forall₂.cons (Or.inl rfl) (List.Forall₂.cons ?_
            (List.Forall₂.cons ?_ List.Forall₂.nil))
          · exact Or.inr ⟨_, _, rfl, rfl,
              Or.inr (Or.inr ⟨["pigz", "-f"],
                ["-S", ".gz", fq1 outdir bam], rfl, rfl⟩)⟩
          · exact Or.inr ⟨_, _, rfl, rfl,
              Or.inr (Or.inr ⟨["pigz", "-f"],
                ["-S", ".gz", fq2 outdir bam], rfl, rfl⟩)⟩
        | false =>
          refine List.Forall₂.cons (Or.inl rfl)
            (List.Forall₂.cons ?_ List.Forall₂.nil)
          exact Or.inr ⟨_, _, rfl, rfl,
            Or.inr (Or.inr ⟨["pigz", "-f"],
              ["-S", ".gz", fq outdir bam], rfl, rfl⟩)⟩
      · exact List.Forall₂.cons (Or.inl rfl) List.Forall₂.nil
    · have hbb : baiExists = false ∧ indexCreatesBai = false := by
        cases baiExists <;> cases indexCreatesBai <;> simp_all [baiAfter]
      obtain ⟨h1, h2⟩ := hbb
      subst h1
      subst h2
      have e : extract_reads bam outdir paired unmapped alts temp threads
            keep_files false false header
          = extract_reads bam outdir paired unmapped alts temp threads'
            keep_files false false header := by
        simp [extract_reads, index_bam, baiAfter]
      rw [e]
      exact eventR_refl _ _ _

theorem tool_order_witness :
    baiAfter true true = true
    ∧ (((runCmds (extract_reads "s.bam" "o/" true true ["hla"] "t/" "2" false
          true true "x")).map toolOf =
        ["samtools", "view"] :: ["samtools", "view"] :: ["samtools", "view"]
          :: ([["samtools", "view"]]
            ++ (List.replicate
                  ((["hla"].filter (fun alt => strContains "x" alt)).length)
                  ["samtools", "view"]
              ++ (["samtools", "view"] :: ["samtools", "sort"]
                  :: ["bedtools", "bamtofastq"]
                  :: [["pigz", "-f"], ["pigz", "-f"]]))))
      ∧ ∃ regs,
          runCmds (extract_reads "s.bam" "o/" true true ["hla"] "t/" "2" false
              true true "x") =
            [["samtools", "view", "-@" ++ "2", "-H", "s.bam"],
             ["samtools", "view", "-H", "-@" ++ "2",
              "s.bam", "-o", hla_filtered "t/" "s.bam"]]
              ++ regs
              ++ [["samtools", "view", "-Sb", "-@" ++ "2",
                   hla_filtered "t/" "s.bam", ">", hla_filtered_bam "t/" "s.bam"],
                  ["samtools", "sort", "-n", "-@" ++ "2",
                   hla_filtered_bam "t/" "s.bam", "-o", hla_sorted "t/" "s.bam"],
                  ["bedtools", "bamtofastq", "-i", hla_sorted "t/" "s.bam",
                   "-fq", fq1 "o/" "s.bam", "-fq2", fq2 "o/" "s.bam"]]
              ++ [["pigz", "-f", "-p", "2", "-S", ".gz", fq1 "o/" "s.bam"],
                  ["pigz", "-f", "-p", "2", "-S", ".gz", fq2 "o/" "s.bam"]]
          ∧ ∀ c ∈ regs, toolOf c = ["samtools", "view"] ∧ ">>" ∈ c
              ∧ c.getLastD "" = hla_filtered "t/" "s.bam") :=
  ⟨rfl, tool_order "s.bam" "o/" true true ["hla"] "t/" "2" false true true "x" rfl⟩

theorem chrom_nomenclature_witness :
    baiAfter true true = true
    ∧ ((∃ pre post,
          runCmds (extract_reads "s.bam" "o/" true true ["hla"] "t/" "2" false
              true true "x") =
            pre ++ ["samtools", "view", "-@" ++ "2", "-f 2", "s.bam",
                    chrom "x", ">>", hla_filtered "t/" "s.bam"] :: post
          ∧ pre.length = 2
          ∧ (true = true →
              post.headD [] = ["samtools", "view", "-@" ++ "2", "-f 12",
                "s.bam", chrom "x", ">>", hla_filtered "t/" "s.bam"]))
      ∧ (chrom "x" = "chr6" ↔ strContains "x" "SN:chr" = true)
      ∧ (chrom "x" = "6" ↔ strContains "x" "SN:chr" = false)) :=
  ⟨rfl, chrom_nomenclature "s.bam" "o/" true true ["hla"] "t/" "2" false
    true true "x" rfl⟩

theorem chr6_flag_filter_witness :
    baiAfter true true = true
    ∧ ∃ pre post flag,
        runCmds (extract_reads "s.bam" "o/" true true ["hla"] "t/" "2" false
            true true "x") =
          pre ++ ["samtools", "view", "-@" ++ "2", flag, "s.bam",
                  chrom "x", ">>", hla_filtered "t/" "s.bam"] :: post
        ∧ pre.length = 2
        ∧ (true = true → flag = "-f 2")
        ∧ (true = false → flag = "-F 4") :=
  ⟨rfl, chr6_flag_filter "s.bam" "o/" true true ["hla"] "t/" "2" false
    true true "x" rfl⟩

theorem unmapped_extraction_witness :
    baiAfter true true = true
    ∧ ((Event.run ["samtools", "view", "-@" ++ "2", "-f 12", "s.bam",
          chrom "x", ">>", hla_filtered "t/" "s.bam"]
        ∈ extract_reads "s.bam" "o/" true true ["hla"] "t/" "2" false
            true true "x")
      ↔ true = true) :=
  ⟨rfl, unmapped_extraction "s.bam" "o/" true true ["hla"] "t/" "2" false
    true true "x" rfl⟩

theorem alt_extraction_witness :
    baiAfter true true = true
    ∧ ∀ alt ∈ ["hla"],
        ((Event.run ["samtools", "view", "-@" ++ "2", "-f 2", "s.bam",
            alt ++ ":", ">>", hla_filtered "t/" "s.bam"]
          ∈ extract_reads "s.bam" "o/" true true ["hla"] "t/" "2" false
              true true "x")
        ↔ strContains "x" alt = true)
        ∧ (Event.run ["samtools", "view", "-@" ++ "2", "-f 2", "s.bam",
            chrom "x", ">>", hla_filtered "t/" "s.bam"]
          ∈ extract_reads "s.bam" "o/" true true ["hla"] "t/" "2" false
              true true "x") :=
  ⟨rfl, alt_extraction "s.bam" "o/" true true ["hla"] "t/" "2" false
    true true "x" rfl⟩

theorem fastq_outputs_witness :
    baiAfter true true = true
    ∧ ∃ pre,
        runCmds (extract_reads "s.bam" "o/" true true ["hla"] "t/" "2" false
            true true "x") =
          pre ++ (["bedtools", "bamtofastq", "-i", hla_sorted "t/" "s.bam",
                   "-fq", fq1 "o/" "s.bam", "-fq2", fq2 "o/" "s.bam"])
            :: [["pigz", "-f", "-p", "2", "-S", ".gz", fq1 "o/" "s.bam"],
                ["pigz", "-f", "-p", "2", "-S", ".gz", fq2 "o/" "s.bam"]]
        ∧ ∀ c ∈ pre, c.headD "" ≠ "pigz" :=
  ⟨rfl, fastq_outputs "s.bam" "o/" true true ["hla"] "t/" "2" false
    true true "x" rfl⟩

theorem remove_intermediates_witness :
    baiAfter true true = true
    ∧ ∃ pre,
        extract_reads "s.bam" "o/" true true ["hla"] "t/" "2" false
            true true "x" =
          pre ++ [Event.removeFiles
            [hla_filtered "t/" "s.bam", hla_filtered_bam "t/" "s.bam",
             hla_sorted "t/" "s.bam"] false]
        ∧ (∀ fs k, Event.removeFiles fs k ∉ pre)
        ∧ fq1 "o/" "s.bam" ∉
            [hla_filtered "t/" "s.bam", hla_filtered_bam "t/" "s.bam",
             hla_sorted "t/" "s.bam"]
        ∧ fq2 "o/" "s.bam" ∉
            [hla_filtered "t/" "s.bam", hla_filtered_bam "t/" "s.bam",
             hla_sorted "t/" "s.bam"]
        ∧ fq "o/" "s.bam" ∉
            [hla_filtered "t/" "s.bam", hla_filtered_bam "t/" "s.bam",
             hla_sorted "t/" "s.bam"] :=
  ⟨rfl, remove_intermediates "s.bam" "o/" true true ["hla"] "t/" "2" false
    true true "x" rfl⟩
